import Mathlib

/-!
Verification of the VPN leak tester's leak-detection and consistency-analysis
logic.  The definitions below are a shallow embedding of the probe code in
`src/app/components/VPNLeakTester.tsx` and
`src/app/components/AdvancedNetworkTests.tsx`:

* JavaScript `Set`s are modelled as duplicate-free `List String`s
  (insertion-ordered, size = length, membership = `List.contains`);
* `fetch`-based lookups are modelled as explicit oracle functions passed as
  parameters (`Except` for fallible calls, `Option` for present-or-absent
  JSON fields);
* the regex classifier `^(192\.168\.|169\.254\.|10\.|172\.(1[6-9]|2[0-9]|3[0-1])\.)`
  is modelled character-exactly over `List Char`.
-/

/-! ## JavaScript set model -/

/-- `new Set(...).add(x)` on a set represented as a duplicate-free list in
insertion order. -/
def jsSetAdd (s : List String) (x : String) : List String :=
  if s.contains x then s else s ++ [x]

/-- `Array.from(new Set(l))`: duplicate-free list of `l`'s elements in first
occurrence order. -/
def jsSetList (l : List String) : List String :=
  l.foldl (fun acc x => if acc.contains x then acc else acc ++ [x]) []

/-! ## Address classifier (checkWebRTCLeak lines 75-97)

The classifying regex is anchored (`^`), so it is a prefix test: the literal is
private iff it starts with `192.168.`, `169.254.`, `10.`, or `172.<n>.` with
`16 ≤ n ≤ 31` (the alternation `1[6-9]|2[0-9]|3[0-1]` lists exactly the
two-digit numbers 16..31). -/

/-- Decimal digit list of one octet value (no leading zeros), for octets
rendered with up to three digits as in a dotted-quad literal. -/
def octetChars (n : Nat) : List Char :=
  if n < 10 then [Nat.digitChar n]
  else if n < 100 then [Nat.digitChar (n / 10), Nat.digitChar (n % 10)]
  else [Nat.digitChar (n / 100), Nat.digitChar (n / 10 % 10), Nat.digitChar (n % 10)]

/-- The canonical dotted-quad rendering `a.b.c.d` of four octet values. -/
def ipv4Chars (a b c d : Nat) : List Char :=
  octetChars a ++ '.' :: (octetChars b ++ '.' :: (octetChars c ++ '.' :: octetChars d))

/-- The canonical dotted-quad literal as a string. -/
def ipv4Literal (a b c d : Nat) : String :=
  ⟨ipv4Chars a b c d⟩

/-- The regex branch `172\.(1[6-9]|2[0-9]|3[0-1])\.`: the sixteen prefixes
`172.16.` .. `172.31.`. -/
def is172Private (s : List Char) : Bool :=
  (List.range 16).any fun k =>
    List.isPrefixOf (['1', '7', '2', '.'] ++ (octetChars (16 + k) ++ ['.'])) s

/-- `ip.match(/^(192\.168\.|169\.254\.|10\.|172\.(1[6-9]|2[0-9]|3[0-1])\.)/)`
as a boolean on the character list of the literal. -/
def isPrivateChars (s : List Char) : Bool :=
  List.isPrefixOf ['1', '9', '2', '.', '1', '6', '8', '.'] s ||
  List.isPrefixOf ['1', '6', '9', '.', '2', '5', '4', '.'] s ||
  List.isPrefixOf ['1', '0', '.'] s ||
  is172Private s

/-- The classifier on string literals: `true` = local/private, `false` = public. -/
def isPrivateIPv4 (ip : String) : Bool :=
  isPrivateChars ip.data

/-! ## Peer-Connection Probe (checkWebRTCLeak lines 67-130)

A candidate event is modelled by the two regex extraction results for its
candidate line: the first IPv4-looking token and the first IPv6-looking token
(either may be absent).  The `onicecandidate` handler accumulates them into
the four sets. -/

structure RTCSets where
  ips : List String
  localIps : List String
  publicIps : List String
  ipv6Ips : List String
deriving DecidableEq, Repr

def emptyRTCSets : RTCSets := ⟨[], [], [], []⟩

/-- The body of `pc.onicecandidate` for one candidate event, given the IPv4
and IPv6 regex match results of `event.candidate.candidate`. -/
def handleCandidate (st : RTCSets) (ipv4Match ipv6Match : Option String) : RTCSets :=
  let st1 :=
    match ipv4Match with
    | none => st
    | some ip =>
      let stA := { st with ips := jsSetAdd st.ips ip }
      if isPrivateIPv4 ip then { stA with localIps := jsSetAdd stA.localIps ip }
      else { stA with publicIps := jsSetAdd stA.publicIps ip }
  match ipv6Match with
  | none => st1
  | some ip => { st1 with ips := jsSetAdd st1.ips ip, ipv6Ips := jsSetAdd st1.ipv6Ips ip }

/-- All candidate events of a run, folded through the handler. -/
def gatherCandidates (events : List (Option String × Option String)) : RTCSets :=
  events.foldl (fun st e => handleCandidate st e.1 e.2) emptyRTCSets

structure EnhancedWebRTCResult where
  leaked : Bool
  ips : List String
  localIps : List String
  publicIps : List String
  ipv6Ips : List String
  error : Bool
deriving DecidableEq, Repr

/-- The result resolved by the 5000 ms deadline callback:
`leaked = publicIps.size > 1` together with the accumulated sets. -/
def webRTCDeadlineResult (events : List (Option String × Option String)) :
    EnhancedWebRTCResult :=
  let st := gatherCandidates events
  { leaked := decide (1 < st.publicIps.length)
    ips := st.ips
    localIps := st.localIps
    publicIps := st.publicIps
    ipv6Ips := st.ipv6Ips
    error := false }

/-- The result resolved by the `createOffer` failure path. -/
def webRTCErrorResult : EnhancedWebRTCResult :=
  { leaked := false, ips := [], localIps := [], publicIps := [], ipv6Ips := [], error := true }

/-- IPv4 literals extracted across all events of a run. -/
def extractedIPv4 (events : List (Option String × Option String)) : List String :=
  events.filterMap Prod.fst

/-- IPv6 literals extracted across all events of a run. -/
def extractedIPv6 (events : List (Option String × Option String)) : List String :=
  events.filterMap Prod.snd

/-- The extracted IPv4 literals that the classifier marks public. -/
def publicExtracted (events : List (Option String × Option String)) : List String :=
  (extractedIPv4 events).filter fun ip => !(isPrivateIPv4 ip)

/-! ## Peer-Connection Probe exit discipline (lines 104-128)

The `setTimeout(..., 5000)` is scheduled unconditionally when the probe starts
and is never cleared, so its callback (`pc.close(); resolve(...)`) always
runs.  The `.catch` callback (`pc.close(); resolve({error:true})`) runs
exactly when the offer / local-description chain fails.  A run's observable
actions are the concatenation of the two callbacks' actions, in either order
(the rejection may occur before or after the deadline). -/

inductive RTCAction where
  | close
  | resolveError
  | resolveDeadline
deriving DecidableEq, Repr, BEq

/-- Actions of the `createOffer().catch` callback. -/
def offerCatchActions : List RTCAction := [.close, .resolveError]

/-- Actions of the deadline (`setTimeout`) callback. -/
def deadlineActions : List RTCAction := [.close, .resolveDeadline]

/-- The action trace of one probe run.  `offerFails` says whether the offer
chain rejected; `catchFirst` fixes the scheduling order of the two callbacks
when both run. -/
def probeActions (offerFails : Bool) (catchFirst : Bool) : List RTCAction :=
  if offerFails then
    if catchFirst then offerCatchActions ++ deadlineActions
    else deadlineActions ++ offerCatchActions
  else deadlineActions

/-- Number of `pc.close()` calls in a trace. -/
def closeCount (l : List RTCAction) : Nat :=
  l.count .close

/-! ## Resolver Probe records and analysis (checkDNSLeaks lines 132-250) -/

structure ResolverRecord where
  server : String
  domain : String
  ipv4 : List String
  ipv6 : List String
  reversePtr : Option String
deriving DecidableEq, Repr

structure LeakAnalysis where
  inconsistentIPv4 : Bool
  inconsistentIPv6 : Bool
  mismatchedPtr : Bool
deriving DecidableEq, Repr

/-- The cross-source set comparison (lines 226-232):
`sets.every(set => set.size === sets[0].size && Array.from(set).every(ip => sets[0].has(ip)))`,
with each JS `Set` built with `new Set(list)` (size = number of distinct
elements, `has` = membership). -/
def allEqual (sets : List (List String)) : Bool :=
  match sets with
  | [] => true
  | s0 :: _ =>
    sets.all fun s =>
      (s.dedup.length == s0.dedup.length) && s.dedup.all fun ip => s0.dedup.contains ip

/-- `ptrs.every(ptr => ptr === ptrs[0])` (line 237). -/
def allEqFirst (l : List String) : Bool :=
  match l with
  | [] => true
  | x :: _ => l.all fun p => p == x

/-- `results.filter(r => r.domain === domain)` (line 222). -/
def domainRecords (results : List ResolverRecord) (d : String) : List ResolverRecord :=
  results.filter fun r => r.domain == d

/-- The per-domain IPv4 disagreement check (lines 226-228). -/
def domainIPv4Bad (results : List ResolverRecord) (d : String) : Bool :=
  !(allEqual ((domainRecords results d).map (·.ipv4)))

/-- The per-domain IPv6 disagreement check (lines 230-232). -/
def domainIPv6Bad (results : List ResolverRecord) (d : String) : Bool :=
  !(allEqual ((domainRecords results d).map (·.ipv6)))

/-- `domainResults.map(r => r.reversePtr).filter(Boolean)` (line 234):
`filter(Boolean)` drops both absent PTRs (`null`/`undefined`) and the empty
string. -/
def domainPtrList (results : List ResolverRecord) (d : String) : List String :=
  (((domainRecords results d).map (·.reversePtr)).filterMap id).filter fun s => !(s == "")

/-- The non-null PTRs of a domain, as the spec describes them. -/
def nonNullPtrs (results : List ResolverRecord) (d : String) : List String :=
  ((domainRecords results d).map (·.reversePtr)).filterMap id

/-- The per-domain PTR mismatch check (lines 235-238): only compares when
more than one PTR survived `filter(Boolean)`. -/
def domainPtrBad (results : List ResolverRecord) (d : String) : Bool :=
  if 1 < (domainPtrList results d).length then !(allEqFirst (domainPtrList results d))
  else false

/-- One iteration of the `for (const domain of testDomains)` analysis loop
(lines 221-239), updating the mutable `leakAnalysis` record. -/
def analyzeStep (results : List ResolverRecord) (la : LeakAnalysis) (d : String) :
    LeakAnalysis :=
  { inconsistentIPv4 := la.inconsistentIPv4 || domainIPv4Bad results d
    inconsistentIPv6 := la.inconsistentIPv6 || domainIPv6Bad results d
    mismatchedPtr := la.mismatchedPtr || domainPtrBad results d }

/-- The whole analysis loop over the test domains. -/
def analyzeDomains (testDomains : List String) (results : List ResolverRecord) :
    LeakAnalysis :=
  testDomains.foldl (analyzeStep results) ⟨false, false, false⟩

structure DNSCheckResult where
  leaked : Bool
  results : List ResolverRecord
  message : String
deriving DecidableEq, Repr

/-- The message construction (lines 244-248): the triggered condition
messages joined with `'; '`, with the JS `|| 'No DNS leaks detected'`
fallback firing exactly when the join is empty. -/
def dnsMessage (la : LeakAnalysis) : String :=
  let parts :=
    [if la.inconsistentIPv4 then some "Inconsistent IPv4 resolutions detected" else none,
     if la.inconsistentIPv6 then some "Inconsistent IPv6 resolutions detected" else none,
     if la.mismatchedPtr then some "Mismatched reverse DNS records detected" else none].filterMap id
  let joined := String.intercalate "; " parts
  if joined == "" then "No DNS leaks detected" else joined

/-- The returned `DNSCheckResult` (lines 241-249). -/
def dnsVerdict (testDomains : List String) (results : List ResolverRecord) :
    DNSCheckResult :=
  let la := analyzeDomains testDomains results
  { leaked := la.inconsistentIPv4 || la.inconsistentIPv6 || la.mismatchedPtr
    results := results
    message := dnsMessage la }

/-- The fixed test domain list (lines 134-142). -/
def testDomains : List String :=
  ["google.com", "cloudflare.com", "netflix.com", "wikipedia.org",
   "amazon.co.jp", "bbc.co.uk", "edu.stanford.edu"]

/-- The verdict of the probe as shipped, over its fixed domain list. -/
def checkDNSLeaksVerdict (results : List ResolverRecord) : DNSCheckResult :=
  dnsVerdict testDomains results

/-- Modelled from the spec's words, for comparison with `dnsMessage`: the
semicolon-joined list of the triggered conditions' messages, or the fixed
no-leak string when no flag is set. -/
def dnsMessageSpec : Bool → Bool → Bool → String
  | false, false, false => "No DNS leaks detected"
  | true,  false, false => "Inconsistent IPv4 resolutions detected"
  | false, true,  false => "Inconsistent IPv6 resolutions detected"
  | false, false, true  => "Mismatched reverse DNS records detected"
  | true,  true,  false => "Inconsistent IPv4 resolutions detected; Inconsistent IPv6 resolutions detected"
  | true,  false, true  => "Inconsistent IPv4 resolutions detected; Mismatched reverse DNS records detected"
  | false, true,  true  => "Inconsistent IPv6 resolutions detected; Mismatched reverse DNS records detected"
  | true,  true,  true  => "Inconsistent IPv4 resolutions detected; Inconsistent IPv6 resolutions detected; Mismatched reverse DNS records detected"

/-! ## Per-address reverse-PTR collection (checkDNSLeaks lines 180-204)

The PTR fetch + JSON parse for one address is an oracle
`String → Except Unit (Option String)`: `.error` models a thrown fetch /
parse error, `.ok none` a response without `Answer[0].data`, `.ok (some s)`
the answer string.  Each address's lookup is wrapped in its own
`try ... catch { return null }`, and `... || null` normalizes an empty data
string to `null`. -/

/-- One address's PTR outcome after the inner `try`/`catch` and `|| null`. -/
def lookupPtr (oracle : String → Except Unit (Option String)) (ip : String) :
    Option String :=
  match oracle ip with
  | .error _ => none
  | .ok none => none
  | .ok (some s) => if s == "" then none else some s

/-- `Promise.all(ipv4Addresses.map(...))`: one isolated lookup per address. -/
def collectPtrs (oracle : String → Except Unit (Option String)) (ips : List String) :
    List (Option String) :=
  ips.map (lookupPtr oracle)

/-- `reversePtrs.filter(Boolean)[0]` (line 203): the first non-null PTR. -/
def recordReversePtr (oracle : String → Except Unit (Option String))
    (ips : List String) : Option String :=
  ((collectPtrs oracle ips).filterMap id).head?

/-! ## Address-Identification Probe (checkIPAddress lines 252-320)

Each configured service's outcome is `Option IPServiceResult` (`none` = the
inner catch returned `null`).  Geolocation is an oracle
`String → Option GeoLocation`; `none` models a thrown `getIpLocation`, which
propagates into the outer catch. -/

structure IPServiceResult where
  service : String
  ip : String
deriving DecidableEq, Repr

structure GeoLocation where
  ip : String
  country : String
  city : String
  lat : Int
  lon : Int
  isp : String
deriving DecidableEq, Repr

inductive IPCheckResult where
  | ok (ip : String) (allIPs : List String) (consistent : Bool)
      (locations : List GeoLocation)
  | err
deriving DecidableEq, Repr

/-- `Promise.all` over already-computed outcomes: `some` of all values, or
`none` if any rejected. -/
def allSome {α : Type} : List (Option α) → Option (List α)
  | [] => some []
  | none :: _ => none
  | some a :: t => (allSome t).map (a :: ·)

/-- The body of `checkIPAddress` after the service fetches: any `throw`
(zero successes, a geolocation failure, or a falsy first address) lands in
the outer catch and yields `{error:true}`. -/
def checkIPAddress (serviceResults : List (Option IPServiceResult))
    (geo : String → Option GeoLocation) : IPCheckResult :=
  let validResults := serviceResults.filterMap id
  if validResults.length == 0 then .err
  else
    let uniqueIPs := jsSetList (validResults.map (·.ip))
    let ipConsistent := uniqueIPs.length == 1
    match allSome (uniqueIPs.map geo) with
    | none => .err
    | some locationData =>
      let mainIP := (validResults.head?.map (·.ip)).getD ""
      if mainIP == "" then .err
      else .ok mainIP uniqueIPs ipConsistent locationData

/-! ## Browser fingerprint probe (AdvancedNetworkTests lines 129-180) -/

structure BrowserEnv where
  languages : List String
  language : String
  platform : String
  screenW : Nat
  screenH : Nat
  colorDepth : Nat
  timeZone : String
  webgl : Option (String × String)
deriving DecidableEq, Repr

structure TestResult where
  status : String
  message : String
  details : List String
deriving DecidableEq, Repr

/-- `navigator.language.split('-')[0]`: the characters before the first `-`. -/
def splitDashHead (l : List Char) : List Char :=
  l.takeWhile fun c => !(c == '-')

/-- JS `s.includes(pat)`: some suffix of `s` starts with `pat`. -/
def hasSubstring (pat : List Char) : List Char → Bool
  | [] => pat.isEmpty
  | c :: t => pat.isPrefixOf (c :: t) || hasSubstring pat t

/-- The inconsistency condition (lines 170-171):
`languages.some(lang => !lang.startsWith(navigator.language.split('-')[0])) || timeZone.includes('UTC')`. -/
def localeMismatch (env : BrowserEnv) : Bool :=
  (env.languages.any fun lang =>
    !(List.isPrefixOf (splitDashHead env.language.data) lang.data)) ||
  hasSubstring ['U', 'T', 'C'] env.timeZone.data

/-- `checkBrowserFingerprint`, with the browser-supplied values packaged in
`BrowserEnv` (`languages` is the resolved
`navigator.languages || [navigator.language]` list). -/
def checkBrowserFingerprint (env : BrowserEnv) : TestResult :=
  let results :=
    ["Browser languages: " ++ String.intercalate ", " env.languages,
     "Platform: " ++ env.platform,
     "Screen resolution: " ++ toString env.screenW ++ "x" ++ toString env.screenH,
     "Color depth: " ++ toString env.colorDepth,
     "Timezone: " ++ env.timeZone] ++
    (match env.webgl with
     | some (v, r) => ["WebGL Vendor: " ++ v, "WebGL Renderer: " ++ r]
     | none => [])
  let leaks :=
    if localeMismatch env then ["Inconsistent browser locale settings detected"] else []
  { status := if 0 < leaks.length then "failed" else "passed"
    message :=
      if 0 < leaks.length then "Browser fingerprint inconsistencies detected"
      else "Browser fingerprint analysis complete"
    details := results ++ leaks }

/-! ## Helper lemmas -/

theorem analyzeDomains_foldl (results : List ResolverRecord) :
    ∀ (doms : List String) (la : LeakAnalysis),
      doms.foldl (analyzeStep results) la =
        ⟨la.inconsistentIPv4 || doms.any (domainIPv4Bad results),
         la.inconsistentIPv6 || doms.any (domainIPv6Bad results),
         la.mismatchedPtr || doms.any (domainPtrBad results)⟩ := by
  intro doms
  induction doms with
  | nil => intro la; simp
  | cons d ds ih =>
    intro la
    simp only [List.foldl_cons, ih, List.any_cons]
    simp [analyzeStep, Bool.or_assoc]

theorem analyzeDomains_any (doms : List String) (results : List ResolverRecord) :
    analyzeDomains doms results =
      ⟨doms.any (domainIPv4Bad results), doms.any (domainIPv6Bad results),
       doms.any (domainPtrBad results)⟩ := by
  simp [analyzeDomains, analyzeDomains_foldl]

/-! ## Claim C1 -/

/-- C1: for every list of resolver records, the verdict returned by the DNS
probe's analysis is leaked iff at least one of `inconsistentIPv4`,
`inconsistentIPv6`, `mismatchedPtr` is true, and its message is the
semicolon-joined list of the triggered conditions' messages, or the fixed
string "No DNS leaks detected" when none of the three flags is true. -/
theorem dns_verdict_composition (results : List ResolverRecord) :
    ((checkDNSLeaksVerdict results).leaked = true ↔
      ((analyzeDomains testDomains results).inconsistentIPv4 = true ∨
       (analyzeDomains testDomains results).inconsistentIPv6 = true ∨
       (analyzeDomains testDomains results).mismatchedPtr = true)) ∧
    (checkDNSLeaksVerdict results).message =
      dnsMessageSpec (analyzeDomains testDomains results).inconsistentIPv4
        (analyzeDomains testDomains results).inconsistentIPv6
        (analyzeDomains testDomains results).mismatchedPtr := by
  rcases h : analyzeDomains testDomains results with ⟨a4, a6, ap⟩
  refine ⟨?_, ?_⟩
  · simp only [checkDNSLeaksVerdict, dnsVerdict, h]
    cases a4 <;> cases a6 <;> cases ap <;> simp
  · simp only [checkDNSLeaksVerdict, dnsVerdict, h]
    cases a4 <;> cases a6 <;> cases ap <;> rfl

/-! ## Claim C8 -/

/-- C8 counterexample: on the offer-failure exit path the peer connection is
closed twice, not exactly once — the catch handler closes it and the
never-cancelled 5000 ms timer closes it again. -/
theorem probe_close_twice_on_offer_failure :
    closeCount (probeActions true true) = 2 ∧
    ¬ closeCount (probeActions true true) = 1 := by
  decide

/-- C8 amended: on every exit path the peer connection created by the run is
closed at least once (before any result is resolved); on a normal
deadline-only run it is closed exactly once, but when the offer /
local-description chain fails it is closed twice, because the deadline timer
is never cancelled and closes the already-closed connection again. -/
theorem probe_close_discipline (offerFails catchFirst : Bool) :
    1 ≤ closeCount (probeActions offerFails catchFirst) ∧
    closeCount (probeActions offerFails catchFirst) = (if offerFails then 2 else 1) ∧
    (probeActions offerFails catchFirst).count .resolveDeadline = 1 ∧
    (probeActions offerFails catchFirst).head? = some .close := by
  cases offerFails <;> cases catchFirst <;> decide

/-! ## Claim C9 -/

/-- C9 counterexample: the claim's two conditions do not match the code.  A
timezone of "Etc/UTC" is not the generic name "UTC" and the languages are
consistent, yet the probe reports `failed` (the code tests
`timeZone.includes('UTC')`, a substring test).  Conversely a configured
language "enx" whose primary subtag differs from the first language's "en"
is reported `passed` (the code tests `lang.startsWith('en')`, which "enx"
satisfies). -/
theorem fingerprint_flag_counterexample :
    (checkBrowserFingerprint
      ⟨["en-US"], "en-US", "MacIntel", 1920, 1080, 24, "Etc/UTC", none⟩).status = "failed" ∧
    ("Etc/UTC" : String) ≠ "UTC" ∧
    (["en-US"].all fun lang =>
      splitDashHead lang.data == splitDashHead ("en-US" : String).data) = true ∧
    (checkBrowserFingerprint
      ⟨["en-US", "enx"], "en-US", "MacIntel", 1920, 1080, 24, "America/New_York", none⟩).status = "passed" ∧
    (splitDashHead ("enx" : String).data == splitDashHead ("en-US" : String).data) = false := by
  decide

/-- C9 amended: the browser-fingerprint probe reports `failed` (with the
locale-inconsistency detail line) iff some configured language does not
start with the primary subtag of `navigator.language`, or the resolved
timezone name contains the substring "UTC"; otherwise it reports `passed`. -/
theorem fingerprint_flag_iff (env : BrowserEnv) :
    ((checkBrowserFingerprint env).status = "failed" ↔
      ((∃ lang ∈ env.languages,
          List.isPrefixOf (splitDashHead env.language.data) lang.data = false) ∨
        hasSubstring ['U', 'T', 'C'] env.timeZone.data = true)) ∧
    ((checkBrowserFingerprint env).status = "failed" →
      "Inconsistent browser locale settings detected" ∈ (checkBrowserFingerprint env).details) ∧
    ((checkBrowserFingerprint env).status ≠ "failed" →
      (checkBrowserFingerprint env).status = "passed") := by
  have hchar : localeMismatch env = true ↔
      ((∃ lang ∈ env.languages,
          List.isPrefixOf (splitDashHead env.language.data) lang.data = false) ∨
        hasSubstring ['U', 'T', 'C'] env.timeZone.data = true) := by
    simp [localeMismatch, List.any_eq_true, Bool.not_eq_true']
  cases hm : localeMismatch env with
  | true =>
    refine ⟨?_, ?_, ?_⟩
    · simpa [checkBrowserFingerprint, hm] using hchar.mp hm
    · intro _
      simp [checkBrowserFingerprint, hm]
    · intro hne
      exact absurd (by simp [checkBrowserFingerprint, hm]) hne
  | false =>
    refine ⟨?_, ?_, ?_⟩
    · constructor
      · intro hst
        exact absurd hst (by simp [checkBrowserFingerprint, hm])
      · intro hc
        exact absurd (hchar.mpr hc) (by simp [hm])
    · intro hst
      exact absurd hst (by simp [checkBrowserFingerprint, hm])
    · intro _
      simp [checkBrowserFingerprint, hm]

/-- C9 witness for the amended theorem at a concrete environment: a timezone
name containing "UTC" yields `failed` with the locale detail line. -/
theorem fingerprint_flag_iff_witness :
    (checkBrowserFingerprint ⟨["fr"], "fr", "Linux", 800, 600, 24, "UTC", none⟩).status = "failed" ∧
    "Inconsistent browser locale settings detected" ∈
      (checkBrowserFingerprint ⟨["fr"], "fr", "Linux", 800, 600, 24, "UTC", none⟩).details := by
  have h := fingerprint_flag_iff ⟨["fr"], "fr", "Linux", 800, 600, 24, "UTC", none⟩
  have hst := h.1.mpr (Or.inr (by decide))
  exact ⟨hst, h.2.1 hst⟩

/-! ## Claim C2 -/

theorem allEqual_elem_iff (s s0 : List String) :
    (((s.dedup.length == s0.dedup.length) &&
        s.dedup.all fun ip => s0.dedup.contains ip) = true) ↔
      s.toFinset = s0.toFinset := by
  rw [Bool.and_eq_true, beq_iff_eq, List.all_eq_true]
  constructor
  · rintro ⟨hlen, hall⟩
    have hsub : s.toFinset ⊆ s0.toFinset := by
      intro x hx
      rw [List.mem_toFinset] at hx ⊢
      have hc := hall x (List.mem_dedup.mpr hx)
      simp only [List.contains, List.elem_eq_mem, decide_eq_true_eq, List.mem_dedup] at hc
      exact hc
    refine Finset.eq_of_subset_of_card_le hsub ?_
    rw [List.card_toFinset, List.card_toFinset, hlen]
  · intro heq
    have hmem : ∀ x, x ∈ s ↔ x ∈ s0 := by
      intro x
      rw [← List.mem_toFinset, ← List.mem_toFinset (l := s0), heq]
    constructor
    · have := congrArg Finset.card heq
      rwa [List.card_toFinset, List.card_toFinset] at this
    · intro x hx
      simp only [List.contains, List.elem_eq_mem, decide_eq_true_eq, List.mem_dedup]
      exact (hmem x).mp (List.mem_dedup.mp hx)

theorem allEqual_iff_toFinset (s0 : List String) (t : List (List String)) :
    allEqual (s0 :: t) = true ↔ ∀ s ∈ s0 :: t, s.toFinset = s0.toFinset := by
  simp only [allEqual, List.all_eq_true]
  constructor
  · intro h s hs
    exact (allEqual_elem_iff s s0).mp (h s hs)
  · intro h s hs
    exact (allEqual_elem_iff s s0).mpr (h s hs)

/-- C2: the per-domain cross-resolver comparison is set equality on
membership, insensitive to order and duplicates: `allEqual` holds iff every
source's set equals the first source's set; it accepts `[{a,b},{b,a}]`,
rejects `[{a},{a,b}]`, and accepts every single-element list; and a single
domain whose IPv4 (resp. IPv6) sets disagree forces the run-wide
`inconsistentIPv4` (resp. `inconsistentIPv6`) flag regardless of the other
domains. -/
theorem allEqual_set_semantics :
    (∀ (s0 : List String) (t : List (List String)),
      allEqual (s0 :: t) = true ↔ ∀ s ∈ s0 :: t, s.toFinset = s0.toFinset) ∧
    allEqual [["a", "b"], ["b", "a"]] = true ∧
    allEqual [["a"], ["a", "b"]] = false ∧
    (∀ s : List String, allEqual [s] = true) ∧
    (∀ (doms : List String) (results : List ResolverRecord) (d : String),
      d ∈ doms → domainIPv4Bad results d = true →
        (analyzeDomains doms results).inconsistentIPv4 = true) ∧
    (∀ (doms : List String) (results : List ResolverRecord) (d : String),
      d ∈ doms → domainIPv6Bad results d = true →
        (analyzeDomains doms results).inconsistentIPv6 = true) := by
  refine ⟨allEqual_iff_toFinset, by decide, by decide, ?_, ?_, ?_⟩
  · intro s
    rw [allEqual_iff_toFinset]
    intro x hx
    rw [List.mem_singleton] at hx
    rw [hx]
  · intro doms results d hd hbad
    rw [analyzeDomains_any]
    exact List.any_eq_true.mpr ⟨d, hd, hbad⟩
  · intro doms results d hd hbad
    rw [analyzeDomains_any]
    exact List.any_eq_true.mpr ⟨d, hd, hbad⟩

/-- C2 witness: the tainting conjunct applied to a concrete
single-domain run in which the two resolvers return different IPv4 sets. -/
theorem allEqual_set_semantics_witness :
    (analyzeDomains ["google.com"]
      [⟨"Cloudflare", "google.com", ["1.2.3.4"], [], none⟩,
       ⟨"Google", "google.com", ["5.6.7.8"], [], none⟩]).inconsistentIPv4 = true := by
  exact allEqual_set_semantics.2.2.2.2.1 ["google.com"]
    [⟨"Cloudflare", "google.com", ["1.2.3.4"], [], none⟩,
     ⟨"Google", "google.com", ["5.6.7.8"], [], none⟩]
    "google.com" (by decide) (by decide)

/-! ## Claim C7 -/

theorem lookupPtr_ne_empty (oracle : String → Except Unit (Option String))
    (ip : String) : lookupPtr oracle ip ≠ some "" := by
  unfold lookupPtr
  rcases oracle ip with e | o
  · simp
  · rcases o with _ | s
    · simp
    · dsimp only
      split
      · simp
      · rename_i hs
        intro hcontra
        rw [Option.some_inj] at hcontra
        subst hcontra
        simp at hs

theorem head_filterMap_id {α : Type} (l : List (Option α)) (p : α) :
    ((l.filterMap id).head? = some p) ↔
      ∃ l1 l2, l = l1 ++ some p :: l2 ∧ ∀ o ∈ l1, o = none := by
  induction l with
  | nil => simp
  | cons o t ih =>
    rcases o with _ | a
    · simp only [List.filterMap_cons, id]
      constructor
      · intro h
        obtain ⟨l1, l2, hl, hall⟩ := ih.mp h
        refine ⟨none :: l1, l2, by rw [hl, List.cons_append], ?_⟩
        intro o ho
        rcases List.mem_cons.mp ho with h1 | h1
        · exact h1
        · exact hall o h1
      · rintro ⟨l1, l2, hl, hall⟩
        cases l1 with
        | nil => simp at hl
        | cons o1 l1' =>
          rw [List.cons_append] at hl
          injection hl with h1 h2
          exact ih.mpr ⟨l1', l2, h2, fun o ho => hall o (List.mem_cons_of_mem _ ho)⟩
    · simp only [List.filterMap_cons, id, List.head?_cons]
      constructor
      · intro h
        rw [Option.some_inj] at h
        exact ⟨[], t, by rw [h, List.nil_append], by simp⟩
      · rintro ⟨l1, l2, hl, hall⟩
        cases l1 with
        | nil =>
          rw [List.nil_append] at hl
          simp only [List.cons.injEq, Option.some.injEq] at hl
          simp [hl.1]
        | cons o1 l1' =>
          rw [List.cons_append] at hl
          injection hl with h1 h2
          have := hall o1 (List.mem_cons_self o1 l1')
          rw [this] at h1
          exact absurd h1 (by simp)

theorem domainPtrList_eq_nonNull (results : List ResolverRecord) (d : String)
    (h : ∀ r ∈ results, r.reversePtr ≠ some "") :
    domainPtrList results d = nonNullPtrs results d := by
  unfold domainPtrList nonNullPtrs
  apply List.filter_eq_self.mpr
  intro s hs
  simp only [List.mem_filterMap, List.mem_map, id] at hs
  obtain ⟨o, ⟨r, hr, hro⟩, ho⟩ := hs
  have hrres : r ∈ results := List.mem_of_mem_filter hr
  have : r.reversePtr = some s := by rw [hro, ho]
  have hne : s ≠ "" := by
    intro hempty
    exact h r hrres (by rw [this, hempty])
  simp [hne]

theorem allEqFirst_false_iff (x : String) (xs : List String) :
    allEqFirst (x :: xs) = false ↔ ∃ p ∈ x :: xs, p ≠ x := by
  constructor
  · intro h
    by_contra hc
    push_neg at hc
    have hall : (x :: xs).all (fun p => p == x) = true :=
      List.all_eq_true.mpr fun p hp => beq_iff_eq.mpr (hc p hp)
    rw [allEqFirst] at h
    rw [hall] at h
    exact absurd h (by simp)
  · rintro ⟨p, hp, hne⟩
    rw [allEqFirst]
    rw [← Bool.not_eq_true, List.all_eq_true]
    intro hall
    exact hne (beq_iff_eq.mp (hall p hp))

theorem domainPtrBad_iff (results : List ResolverRecord) (d : String) :
    domainPtrBad results d = true ↔
      2 ≤ (domainPtrList results d).length ∧
        ∃ p ∈ domainPtrList results d, (domainPtrList results d).head? ≠ some p := by
  unfold domainPtrBad
  split
  · rename_i hlen
    rcases hl : domainPtrList results d with _ | ⟨x, xs⟩
    · rw [hl] at hlen
      simp at hlen
    · rw [hl] at hlen
      rw [Bool.not_eq_true']
      rw [allEqFirst_false_iff]
      constructor
      · rintro ⟨p, hp, hne⟩
        refine ⟨hlen, p, hp, ?_⟩
        rw [List.head?_cons]
        exact fun hcon => hne (Option.some_inj.mp hcon).symm
      · rintro ⟨_, p, hp, hne⟩
        refine ⟨p, hp, ?_⟩
        intro hpx
        apply hne
        rw [List.head?_cons, hpx]
  · rename_i hlen
    simp only [Nat.not_lt] at hlen
    constructor
    · intro h
      exact absurd h (by simp)
    · rintro ⟨h2, _⟩
      omega

/-- C7: a PTR-lookup failure for one resolved IPv4 address yields null for
that address only (each address's entry is a function of its own lookup
alone, so sibling addresses of the same response are unaffected); the
record's `reversePtr` is the first non-null PTR answer; and the analysis
compares PTRs for a domain only when at least two resolver records carry a
non-null PTR, setting `mismatchedPtr` exactly when those PTRs are not all
equal to the first.  (The collection normalizes an empty PTR answer to null
— fourth conjunct — so the analysis hypothesis that no record carries
`some ""` holds for all collected records.) -/
theorem ptr_isolation_and_mismatch :
    (∀ (oracle : String → Except Unit (Option String)) (ips : List String) (i : Nat),
      (collectPtrs oracle ips)[i]? = (ips[i]?).map (lookupPtr oracle)) ∧
    (∀ (oracle : String → Except Unit (Option String)) (ips : List String)
        (i : Nat) (ip : String),
      ips[i]? = some ip → oracle ip = .error () →
        (collectPtrs oracle ips)[i]? = some none) ∧
    (∀ (oracle : String → Except Unit (Option String)) (ips : List String) (p : String),
      recordReversePtr oracle ips = some p ↔
        ∃ l1 l2, collectPtrs oracle ips = l1 ++ some p :: l2 ∧ ∀ o ∈ l1, o = none) ∧
    (∀ (oracle : String → Except Unit (Option String)) (ip : String),
      lookupPtr oracle ip ≠ some "") ∧
    (∀ (doms : List String) (results : List ResolverRecord),
      (∀ r ∈ results, r.reversePtr ≠ some "") →
        ((analyzeDomains doms results).mismatchedPtr = true ↔
          ∃ d ∈ doms, 2 ≤ (nonNullPtrs results d).length ∧
            ∃ p ∈ nonNullPtrs results d, (nonNullPtrs results d).head? ≠ some p)) := by
  refine ⟨?_, ?_, ?_, lookupPtr_ne_empty, ?_⟩
  · intro oracle ips i
    rw [collectPtrs, List.getElem?_map]
  · intro oracle ips i ip hip herr
    rw [collectPtrs, List.getElem?_map, hip]
    rw [Option.map_some']
    rw [lookupPtr, herr]
  · intro oracle ips p
    exact head_filterMap_id (collectPtrs oracle ips) p
  · intro doms results h
    rw [analyzeDomains_any]
    simp only [List.any_eq_true]
    constructor
    · rintro ⟨d, hd, hbad⟩
      refine ⟨d, hd, ?_⟩
      rw [← domainPtrList_eq_nonNull results d h]
      exact (domainPtrBad_iff results d).mp hbad
    · rintro ⟨d, hd, hcond⟩
      refine ⟨d, hd, ?_⟩
      rw [← domainPtrList_eq_nonNull results d h] at hcond
      exact (domainPtrBad_iff results d).mpr hcond

/-- C7 witness: the comparison conjunct applied to a concrete run — one
domain with two records whose non-null PTRs disagree flags `mismatchedPtr`. -/
theorem ptr_isolation_and_mismatch_witness :
    (analyzeDomains ["d"]
      [⟨"A", "d", [], [], some "host-a.example"⟩,
       ⟨"B", "d", [], [], some "host-b.example"⟩]).mismatchedPtr = true := by
  exact (ptr_isolation_and_mismatch.2.2.2.2 ["d"]
    [⟨"A", "d", [], [], some "host-a.example"⟩,
     ⟨"B", "d", [], [], some "host-b.example"⟩]
    (by decide)).mpr (by decide)

/-! ## Claims C3 and C10 -/

theorem mem_jsSetAdd (s : List String) (x y : String) :
    y ∈ jsSetAdd s x ↔ y ∈ s ∨ y = x := by
  unfold jsSetAdd
  split
  · rename_i hc
    simp only [List.contains, List.elem_eq_mem, decide_eq_true_eq] at hc
    constructor
    · exact Or.inl
    · rintro (h | rfl)
      · exact h
      · exact hc
  · simp [List.mem_append]

theorem nodup_jsSetAdd (s : List String) (x : String) (h : s.Nodup) :
    (jsSetAdd s x).Nodup := by
  unfold jsSetAdd
  split
  · exact h
  · rename_i hc
    simp only [List.contains, List.elem_eq_mem, decide_eq_true_eq] at hc
    rw [List.nodup_append]
    refine ⟨h, List.nodup_singleton x, ?_⟩
    intro a ha hax
    rw [List.mem_singleton] at hax
    exact hc (hax ▸ ha)

theorem handle_mem_local (st : RTCSets) (v4 v6 : Option String) (x : String) :
    x ∈ (handleCandidate st v4 v6).localIps ↔
      x ∈ st.localIps ∨ (v4 = some x ∧ isPrivateIPv4 x = true) := by
  rcases v4 with _ | ip4 <;> rcases v6 with _ | ip6
  · simp [handleCandidate]
  · simp [handleCandidate]
  · cases hp : isPrivateIPv4 ip4 <;>
      simp only [handleCandidate, hp, if_true, if_false, Bool.false_eq_true, mem_jsSetAdd,
        Option.some.injEq] <;> aesop
  · cases hp : isPrivateIPv4 ip4 <;>
      simp only [handleCandidate, hp, if_true, if_false, Bool.false_eq_true, mem_jsSetAdd,
        Option.some.injEq] <;> aesop

theorem handle_mem_public (st : RTCSets) (v4 v6 : Option String) (x : String) :
    x ∈ (handleCandidate st v4 v6).publicIps ↔
      x ∈ st.publicIps ∨ (v4 = some x ∧ isPrivateIPv4 x = false) := by
  rcases v4 with _ | ip4 <;> rcases v6 with _ | ip6
  · simp [handleCandidate]
  · simp [handleCandidate]
  · cases hp : isPrivateIPv4 ip4 <;>
      simp only [handleCandidate, hp, if_true, if_false, Bool.false_eq_true, mem_jsSetAdd,
        Option.some.injEq] <;> aesop
  · cases hp : isPrivateIPv4 ip4 <;>
      simp only [handleCandidate, hp, if_true, if_false, Bool.false_eq_true, mem_jsSetAdd,
        Option.some.injEq] <;> aesop

theorem handle_mem_ipv6 (st : RTCSets) (v4 v6 : Option String) (x : String) :
    x ∈ (handleCandidate st v4 v6).ipv6Ips ↔ x ∈ st.ipv6Ips ∨ v6 = some x := by
  rcases v4 with _ | ip4 <;> rcases v6 with _ | ip6
  · simp [handleCandidate]
  · simp [handleCandidate, mem_jsSetAdd, eq_comm]
  · cases hp : isPrivateIPv4 ip4 <;>
      simp only [handleCandidate, hp, if_true, if_false, Bool.false_eq_true, mem_jsSetAdd,
        Option.some.injEq] <;> aesop
  · cases hp : isPrivateIPv4 ip4 <;>
      simp only [handleCandidate, hp, if_true, if_false, Bool.false_eq_true, mem_jsSetAdd,
        Option.some.injEq] <;> aesop

theorem handle_mem_ips (st : RTCSets) (v4 v6 : Option String) (x : String) :
    x ∈ (handleCandidate st v4 v6).ips ↔
      x ∈ st.ips ∨ v4 = some x ∨ v6 = some x := by
  rcases v4 with _ | ip4 <;> rcases v6 with _ | ip6
  · simp [handleCandidate]
  · simp [handleCandidate, mem_jsSetAdd, eq_comm]
  · cases hp : isPrivateIPv4 ip4 <;>
      simp only [handleCandidate, hp, if_true, if_false, Bool.false_eq_true, mem_jsSetAdd,
        Option.some.injEq] <;> aesop
  · cases hp : isPrivateIPv4 ip4 <;>
      simp only [handleCandidate, hp, if_true, if_false, Bool.false_eq_true, mem_jsSetAdd,
        Option.some.injEq] <;> aesop

theorem handle_nodup (st : RTCSets) (v4 v6 : Option String)
    (h1 : st.ips.Nodup) (h2 : st.localIps.Nodup) (h3 : st.publicIps.Nodup)
    (h4 : st.ipv6Ips.Nodup) :
    (handleCandidate st v4 v6).ips.Nodup ∧
    (handleCandidate st v4 v6).localIps.Nodup ∧
    (handleCandidate st v4 v6).publicIps.Nodup ∧
    (handleCandidate st v4 v6).ipv6Ips.Nodup := by
  rcases v4 with _ | ip4 <;> rcases v6 with _ | ip6
  · exact ⟨h1, h2, h3, h4⟩
  · exact ⟨nodup_jsSetAdd _ _ h1, h2, h3, nodup_jsSetAdd _ _ h4⟩
  · cases hp : isPrivateIPv4 ip4 <;>
      simp only [handleCandidate, hp, if_true, if_false, Bool.false_eq_true]
    · exact ⟨nodup_jsSetAdd _ _ h1, h2, nodup_jsSetAdd _ _ h3, h4⟩
    · exact ⟨nodup_jsSetAdd _ _ h1, nodup_jsSetAdd _ _ h2, h3, h4⟩
  · cases hp : isPrivateIPv4 ip4 <;>
      simp only [handleCandidate, hp, if_true, if_false, Bool.false_eq_true]
    · exact ⟨nodup_jsSetAdd _ _ (nodup_jsSetAdd _ _ h1), h2, nodup_jsSetAdd _ _ h3,
        nodup_jsSetAdd _ _ h4⟩
    · exact ⟨nodup_jsSetAdd _ _ (nodup_jsSetAdd _ _ h1), nodup_jsSetAdd _ _ h2, h3,
        nodup_jsSetAdd _ _ h4⟩

theorem orShape1 (A B C P : Prop) : ((A ∨ (B ∧ P)) ∨ (C ∧ P)) ↔ (A ∨ ((B ∨ C) ∧ P)) := by
  tauto

theorem orShape2 (A B B' C C' : Prop) :
    ((A ∨ B ∨ B') ∨ (C ∨ C')) ↔ (A ∨ (B ∨ C) ∨ (B' ∨ C')) := by
  tauto

set_option maxHeartbeats 1000000 in
theorem gatherFrom_mem (events : List (Option String × Option String)) :
    ∀ (st : RTCSets) (x : String),
      (x ∈ (events.foldl (fun s e => handleCandidate s e.1 e.2) st).localIps ↔
        x ∈ st.localIps ∨ (x ∈ extractedIPv4 events ∧ isPrivateIPv4 x = true)) ∧
      (x ∈ (events.foldl (fun s e => handleCandidate s e.1 e.2) st).publicIps ↔
        x ∈ st.publicIps ∨ (x ∈ extractedIPv4 events ∧ isPrivateIPv4 x = false)) ∧
      (x ∈ (events.foldl (fun s e => handleCandidate s e.1 e.2) st).ipv6Ips ↔
        x ∈ st.ipv6Ips ∨ x ∈ extractedIPv6 events) ∧
      (x ∈ (events.foldl (fun s e => handleCandidate s e.1 e.2) st).ips ↔
        x ∈ st.ips ∨ x ∈ extractedIPv4 events ∨ x ∈ extractedIPv6 events) := by
  induction events with
  | nil =>
    intro st x
    simp [extractedIPv4, extractedIPv6]
  | cons e es ih =>
    intro st x
    simp only [List.foldl_cons]
    obtain ⟨ih1, ih2, ih3, ih4⟩ := ih (handleCandidate st e.1 e.2) x
    have he4 : x ∈ extractedIPv4 (e :: es) ↔ e.1 = some x ∨ x ∈ extractedIPv4 es := by
      simp only [extractedIPv4, List.mem_filterMap, List.mem_cons]
      aesop
    have he6 : x ∈ extractedIPv6 (e :: es) ↔ e.2 = some x ∨ x ∈ extractedIPv6 es := by
      simp only [extractedIPv6, List.mem_filterMap, List.mem_cons]
      aesop
    refine ⟨?_, ?_, ?_, ?_⟩
    · rw [ih1, handle_mem_local, he4]
      exact orShape1 _ _ _ _
    · rw [ih2, handle_mem_public, he4]
      exact orShape1 _ _ _ _
    · rw [ih3, handle_mem_ipv6, he6]
      exact or_assoc
    · rw [ih4, handle_mem_ips, he4, he6]
      exact orShape2 _ _ _ _ _

theorem gather_mem (events : List (Option String × Option String)) (x : String) :
    (x ∈ (gatherCandidates events).localIps ↔
      x ∈ extractedIPv4 events ∧ isPrivateIPv4 x = true) ∧
    (x ∈ (gatherCandidates events).publicIps ↔
      x ∈ extractedIPv4 events ∧ isPrivateIPv4 x = false) ∧
    (x ∈ (gatherCandidates events).ipv6Ips ↔ x ∈ extractedIPv6 events) ∧
    (x ∈ (gatherCandidates events).ips ↔
      x ∈ extractedIPv4 events ∨ x ∈ extractedIPv6 events) := by
  have h := gatherFrom_mem events emptyRTCSets x
  simpa [gatherCandidates, emptyRTCSets] using h

theorem gather_nodup (events : List (Option String × Option String)) :
    ∀ st : RTCSets, st.ips.Nodup → st.localIps.Nodup → st.publicIps.Nodup →
      st.ipv6Ips.Nodup →
      (events.foldl (fun s e => handleCandidate s e.1 e.2) st).ips.Nodup ∧
      (events.foldl (fun s e => handleCandidate s e.1 e.2) st).localIps.Nodup ∧
      (events.foldl (fun s e => handleCandidate s e.1 e.2) st).publicIps.Nodup ∧
      (events.foldl (fun s e => handleCandidate s e.1 e.2) st).ipv6Ips.Nodup := by
  induction events with
  | nil =>
    intro st h1 h2 h3 h4
    exact ⟨h1, h2, h3, h4⟩
  | cons e es ih =>
    intro st h1 h2 h3 h4
    simp only [List.foldl_cons]
    obtain ⟨g1, g2, g3, g4⟩ := handle_nodup st e.1 e.2 h1 h2 h3 h4
    exact ih (handleCandidate st e.1 e.2) g1 g2 g3 g4

/-- C3: whenever the Peer-Connection Probe completes via its 5000 ms
deadline, the `leaked` field of the returned result is true iff the
accumulated set of public IPv4 addresses has strictly more than one element
— equivalently, iff strictly more than one distinct extracted IPv4 literal
is classified public.  Local and IPv6 addresses do not occur in this
condition, so they never contribute to `leaked`. -/
theorem peer_leaked_iff (events : List (Option String × Option String)) :
    (webRTCDeadlineResult events).leaked = true ↔
      1 < (publicExtracted events).toFinset.card := by
  have hnd : (gatherCandidates events).publicIps.Nodup :=
    (gather_nodup events emptyRTCSets (by simp [emptyRTCSets]) (by simp [emptyRTCSets])
      (by simp [emptyRTCSets]) (by simp [emptyRTCSets])).2.2.1
  have hset : (gatherCandidates events).publicIps.toFinset =
      (publicExtracted events).toFinset := by
    ext x
    simp only [List.mem_toFinset]
    rw [(gather_mem events x).2.1]
    simp [publicExtracted, List.mem_filter, Bool.not_eq_true']
  have hlen : (gatherCandidates events).publicIps.length =
      (publicExtracted events).toFinset.card := by
    rw [← List.toFinset_card_of_nodup hnd, hset]
  simp only [webRTCDeadlineResult, decide_eq_true_eq]
  rw [hlen]

/-- C10: for every deadline-path run, the returned address sets partition
consistently: every address in `localIps`, `publicIps`, or `ipv6Ips` is also
in `ips`; every extracted IPv4 address is placed in exactly one of
`localIps` and `publicIps` (which are disjoint); and every extracted IPv6
address is placed in `ipv6Ips`. -/
theorem peer_sets_partition (events : List (Option String × Option String))
    (x : String) :
    (x ∈ (webRTCDeadlineResult events).localIps → x ∈ (webRTCDeadlineResult events).ips) ∧
    (x ∈ (webRTCDeadlineResult events).publicIps → x ∈ (webRTCDeadlineResult events).ips) ∧
    (x ∈ (webRTCDeadlineResult events).ipv6Ips → x ∈ (webRTCDeadlineResult events).ips) ∧
    ¬(x ∈ (webRTCDeadlineResult events).localIps ∧
      x ∈ (webRTCDeadlineResult events).publicIps) ∧
    (x ∈ extractedIPv4 events →
      (x ∈ (webRTCDeadlineResult events).localIps ∧
        x ∉ (webRTCDeadlineResult events).publicIps) ∨
      (x ∈ (webRTCDeadlineResult events).publicIps ∧
        x ∉ (webRTCDeadlineResult events).localIps)) ∧
    (x ∈ extractedIPv6 events → x ∈ (webRTCDeadlineResult events).ipv6Ips) := by
  obtain ⟨hl, hp, h6, hi⟩ := gather_mem events x
  simp only [webRTCDeadlineResult]
  refine ⟨?_, ?_, ?_, ?_, ?_, ?_⟩
  · intro h
    rw [hl] at h
    rw [hi]
    exact Or.inl h.1
  · intro h
    rw [hp] at h
    rw [hi]
    exact Or.inl h.1
  · intro h
    rw [h6] at h
    rw [hi]
    exact Or.inr h
  · rintro ⟨h1, h2⟩
    rw [hl] at h1
    rw [hp] at h2
    rw [h1.2] at h2
    exact absurd h2.2 (by simp)
  · intro h
    cases hpriv : isPrivateIPv4 x with
    | true =>
      refine Or.inl ⟨hl.mpr ⟨h, hpriv⟩, ?_⟩
      intro hc
      rw [hp] at hc
      rw [hpriv] at hc
      exact absurd hc.2 (by simp)
    | false =>
      refine Or.inr ⟨hp.mpr ⟨h, hpriv⟩, ?_⟩
      intro hc
      rw [hl] at hc
      rw [hpriv] at hc
      exact absurd hc.2 (by simp)
  · intro h
    exact h6.mpr h

/-- C10 witness: the partition conjuncts applied to a concrete run with one
private IPv4, one public IPv4, and one IPv6 candidate. -/
theorem peer_sets_partition_witness :
    "10.0.0.1" ∈ (webRTCDeadlineResult
      [(some "10.0.0.1", none), (some "8.8.8.8", some "2001:0db8:85a3:0:0:8a2e:0370:7334")]).ips ∧
    ("10.0.0.1" ∈ (webRTCDeadlineResult
      [(some "10.0.0.1", none), (some "8.8.8.8", some "2001:0db8:85a3:0:0:8a2e:0370:7334")]).localIps ∧
     "10.0.0.1" ∉ (webRTCDeadlineResult
      [(some "10.0.0.1", none), (some "8.8.8.8", some "2001:0db8:85a3:0:0:8a2e:0370:7334")]).publicIps) := by
  have h := peer_sets_partition
    [(some "10.0.0.1", none), (some "8.8.8.8", some "2001:0db8:85a3:0:0:8a2e:0370:7334")]
    "10.0.0.1"
  have hpart := (h.2.2.2.2.1 (by decide)).resolve_right (by decide)
  exact ⟨h.1 hpart.1, hpart⟩

/-! ## Claims C5 and C6 -/

theorem mem_jsSetList_from (l : List String) :
    ∀ (acc : List String) (y : String),
      (y ∈ l.foldl (fun acc x => if acc.contains x then acc else acc ++ [x]) acc ↔
        y ∈ acc ∨ y ∈ l) := by
  induction l with
  | nil =>
    intro acc y
    simp
  | cons a t ih =>
    intro acc y
    rw [List.foldl_cons]
    have hstep : (if acc.contains a then acc else acc ++ [a]) = jsSetAdd acc a := rfl
    rw [hstep, ih, mem_jsSetAdd, List.mem_cons, or_assoc]

theorem nodup_jsSetList_from (l : List String) :
    ∀ acc : List String, acc.Nodup →
      (l.foldl (fun acc x => if acc.contains x then acc else acc ++ [x]) acc).Nodup := by
  induction l with
  | nil =>
    intro acc h
    exact h
  | cons a t ih =>
    intro acc h
    rw [List.foldl_cons]
    have hstep : (if acc.contains a then acc else acc ++ [a]) = jsSetAdd acc a := rfl
    rw [hstep]
    exact ih (jsSetAdd acc a) (nodup_jsSetAdd acc a h)

theorem mem_jsSetList (l : List String) (y : String) : y ∈ jsSetList l ↔ y ∈ l := by
  rw [jsSetList, mem_jsSetList_from]
  simp

theorem nodup_jsSetList (l : List String) : (jsSetList l).Nodup :=
  nodup_jsSetList_from l [] List.nodup_nil

theorem jsSetList_length (l : List String) :
    (jsSetList l).length = l.toFinset.card := by
  rw [← List.toFinset_card_of_nodup (nodup_jsSetList l)]
  congr 1
  ext x
  simp [mem_jsSetList]

theorem allSome_map_eq_none {α β : Type} (g : α → Option β) (l : List α) :
    allSome (l.map g) = none ↔ ∃ x ∈ l, g x = none := by
  induction l with
  | nil => simp [allSome]
  | cons a t ih =>
    rcases hg : g a with _ | b
    · simp only [List.map_cons, hg, allSome]
      constructor
      · intro _
        exact ⟨a, List.mem_cons_self a t, hg⟩
      · intro _
        trivial
    · simp only [List.map_cons, hg, allSome, Option.map_eq_none', ih]
      constructor
      · rintro ⟨x, hx, hgx⟩
        exact ⟨x, List.mem_cons_of_mem a hx, hgx⟩
      · rintro ⟨x, hx, hgx⟩
        rcases List.mem_cons.mp hx with rfl | hxt
        · rw [hgx] at hg
          exact absurd hg (by simp)
        · exact ⟨x, hxt, hgx⟩

/-- C6 counterexample: one configured service succeeds (returning
"1.2.3.4") but the geolocation fetch for that address fails; the probe
returns the error signal even though the number of successful services is
one, not zero. -/
theorem ip_error_counterexample :
    checkIPAddress [some ⟨"ipify", "1.2.3.4"⟩, none, none] (fun _ => none) =
      IPCheckResult.err ∧
    ([some (⟨"ipify", "1.2.3.4"⟩ : IPServiceResult), none, none].filterMap id).length = 1 := by
  exact ⟨rfl, rfl⟩

/-- C6 amended: provided every successful service reports a non-empty
address, the probe returns the error signal iff zero configured services
succeed or a geolocation lookup for one of the distinct reported addresses
fails; in particular an individual service failure alone is dropped without
failing the probe, but a geolocation failure fails it even with successful
services. -/
theorem ip_error_iff (serviceResults : List (Option IPServiceResult))
    (geo : String → Option GeoLocation)
    (hip : ∀ r ∈ serviceResults.filterMap id, r.ip ≠ "") :
    checkIPAddress serviceResults geo = IPCheckResult.err ↔
      (serviceResults.filterMap id = [] ∨
        ∃ ip ∈ jsSetList ((serviceResults.filterMap id).map (·.ip)), geo ip = none) := by
  rcases hv : serviceResults.filterMap id with _ | ⟨v, vs⟩
  · simp [checkIPAddress, hv]
  · simp only [checkIPAddress, hv]
    have hlen : ((v :: vs).length == 0) = false := by simp
    rw [hlen]
    simp only [Bool.false_eq_true, if_false]
    rcases hall : allSome ((jsSetList ((v :: vs).map (·.ip))).map geo) with _ | locs
    · have hex : ∃ ip ∈ jsSetList ((v :: vs).map (·.ip)), geo ip = none :=
        (allSome_map_eq_none geo _).mp hall
      simp only [hall]
      exact ⟨fun _ => Or.inr hex, fun _ => trivial⟩
    · have hnone : ¬ ∃ ip ∈ jsSetList ((v :: vs).map (·.ip)), geo ip = none := by
        intro hc
        rw [← allSome_map_eq_none] at hc
        rw [hall] at hc
        exact absurd hc (by simp)
      have hne : (v.ip == "") = false := by
        have : v.ip ≠ "" := hip v (by rw [hv]; exact List.mem_cons_self v vs)
        simpa using this
      simp only [hall, List.head?_cons, Option.map_some', Option.getD_some, hne,
        Bool.false_eq_true, if_false]
      constructor
      · intro hcontra
        exact absurd hcontra (by simp)
      · rintro (hc | hc)
        · exact absurd hc (by simp)
        · exact absurd hc hnone

/-- C6 witness for the amended theorem: a concrete run with one successful
service and a failing geolocation oracle returns the error signal. -/
theorem ip_error_iff_witness :
    checkIPAddress [some ⟨"ipify", "1.2.3.4"⟩] (fun _ => none) = IPCheckResult.err := by
  exact (ip_error_iff [some ⟨"ipify", "1.2.3.4"⟩] (fun _ => none) (by decide)).mpr
    (Or.inr ⟨"1.2.3.4", by decide, rfl⟩)

theorem jsSetList_size_one (l : List String) :
    ((jsSetList l).length == 1) = decide (l.toFinset.card = 1) := by
  rw [jsSetList_length]
  by_cases h : l.toFinset.card = 1
  · simp [h]
  · simp [h]

/-- C5: for every non-empty list of successful identification-service
results (with each successful service reporting its address, all geolocation
lookups succeeding, and the first address non-empty so that the probe
returns a verdict), the verdict's `consistent` flag is true iff the set of
distinct returned addresses has exactly one element, and its primary address
is the first successful service's address even when the set is
inconsistent. -/
theorem ip_verdict_consistency (serviceResults : List (Option IPServiceResult))
    (geo : String → Option GeoLocation) (v : IPServiceResult)
    (vs : List IPServiceResult) (locs : List GeoLocation)
    (hvalid : serviceResults.filterMap id = v :: vs)
    (hgeo : allSome ((jsSetList ((v :: vs).map (·.ip))).map geo) = some locs)
    (hip : v.ip ≠ "") :
    checkIPAddress serviceResults geo =
      IPCheckResult.ok v.ip (jsSetList ((v :: vs).map (·.ip)))
        (decide ((((v :: vs).map (·.ip)).toFinset.card) = 1)) locs := by
  simp only [checkIPAddress, hvalid]
  have hlen : ((v :: vs).length == 0) = false := by simp
  rw [hlen]
  have hne : (v.ip == "") = false := by simpa using hip
  simp only [Bool.false_eq_true, if_false, hgeo, List.head?_cons, Option.map_some',
    Option.getD_some, hne]
  rw [jsSetList_size_one]

/-- C5 witness: the spec's end-to-end scenario — services return
203.0.113.9, 203.0.113.9, 198.51.100.2 (after one failed service), giving
`consistent = false`, two distinct addresses, and the first service's value
as primary. -/
theorem ip_verdict_consistency_witness :
    checkIPAddress
      [none, some ⟨"ipify", "203.0.113.9"⟩, some ⟨"icanhazip", "203.0.113.9"⟩,
       some ⟨"ipapi", "198.51.100.2"⟩]
      (fun ip => some ⟨ip, "US", "City", 0, 0, "ISP"⟩) =
      IPCheckResult.ok "203.0.113.9" ["203.0.113.9", "198.51.100.2"] false
        [⟨"203.0.113.9", "US", "City", 0, 0, "ISP"⟩,
         ⟨"198.51.100.2", "US", "City", 0, 0, "ISP"⟩] := by
  exact ip_verdict_consistency
    [none, some ⟨"ipify", "203.0.113.9"⟩, some ⟨"icanhazip", "203.0.113.9"⟩,
     some ⟨"ipapi", "198.51.100.2"⟩]
    (fun ip => some ⟨ip, "US", "City", 0, 0, "ISP"⟩)
    ⟨"ipify", "203.0.113.9"⟩
    [⟨"icanhazip", "203.0.113.9"⟩, ⟨"ipapi", "198.51.100.2"⟩]
    [⟨"203.0.113.9", "US", "City", 0, 0, "ISP"⟩,
     ⟨"198.51.100.2", "US", "City", 0, 0, "ISP"⟩]
    rfl rfl (by decide)

/-! ## Claim C4 -/

theorem digitChar_ne_dot10 : ∀ m < 10, Nat.digitChar m ≠ '.' := by decide

theorem digitChar_inj10 : ∀ m < 10, ∀ n < 10,
    Nat.digitChar m = Nat.digitChar n → m = n := by decide

theorem not_dot_octet (n : Nat) (hn : n < 1000) : '.' ∉ octetChars n := by
  unfold octetChars
  split
  · rename_i hlt
    simp only [List.mem_singleton]
    exact fun h => digitChar_ne_dot10 n hlt h.symm
  · split
    · rename_i hge hlt
      intro h
      rcases List.mem_cons.mp h with h | h
      · exact digitChar_ne_dot10 (n / 10) (by omega) h.symm
      · rw [List.mem_singleton] at h
        exact digitChar_ne_dot10 (n % 10) (by omega) h.symm
    · rename_i hge1 hge2
      intro h
      rcases List.mem_cons.mp h with h | h
      · exact digitChar_ne_dot10 (n / 100) (by omega) h.symm
      · rcases List.mem_cons.mp h with h | h
        · exact digitChar_ne_dot10 (n / 10 % 10) (by omega) h.symm
        · rw [List.mem_singleton] at h
          exact digitChar_ne_dot10 (n % 10) (by omega) h.symm

theorem isPrefixOf_dot : ∀ (q u r t : List Char), '.' ∉ q → '.' ∉ u →
    (List.isPrefixOf (q ++ '.' :: r) (u ++ '.' :: t) = true ↔
      (q = u ∧ List.isPrefixOf r t = true)) := by
  intro q
  induction q with
  | nil =>
    intro u r t _ hu
    cases u with
    | nil =>
      simp [List.isPrefixOf_cons₂]
    | cons x u' =>
      have hx : ('.' : Char) ≠ x := fun h => hu (by rw [h]; exact List.mem_cons_self x u')
      simp [List.isPrefixOf_cons₂, hx]
  | cons a q' ih =>
    intro u r t hq hu
    have ha : a ≠ '.' := fun h => hq (by rw [← h]; exact List.mem_cons_self a q')
    cases u with
    | nil =>
      simp [List.isPrefixOf_cons₂, ha]
    | cons x u' =>
      have hq' : ('.' : Char) ∉ q' := fun h => hq (List.mem_cons_of_mem _ h)
      have hu' : ('.' : Char) ∉ u' := fun h => hu (List.mem_cons_of_mem _ h)
      simp only [List.cons_append, List.isPrefixOf_cons₂, Bool.and_eq_true, beq_iff_eq,
        ih u' r t hq' hu', List.cons.injEq]
      tauto

theorem octetChars_inj (a b : Nat) (ha : a < 1000) (hb : b < 1000)
    (h : octetChars a = octetChars b) : a = b := by
  have hcase : ∀ n : Nat, n < 1000 →
      (n < 10 ∧ octetChars n = [Nat.digitChar n]) ∨
      (10 ≤ n ∧ n < 100 ∧
        octetChars n = [Nat.digitChar (n / 10), Nat.digitChar (n % 10)]) ∨
      (100 ≤ n ∧ octetChars n =
        [Nat.digitChar (n / 100), Nat.digitChar (n / 10 % 10), Nat.digitChar (n % 10)]) := by
    intro n hn
    unfold octetChars
    split
    · rename_i h1
      exact Or.inl ⟨h1, rfl⟩
    · split
      · rename_i h1 h2
        exact Or.inr (Or.inl ⟨by omega, h2, rfl⟩)
      · rename_i h1 h2
        exact Or.inr (Or.inr ⟨by omega, rfl⟩)
  rcases hcase a ha with ⟨ha1, hae⟩ | ⟨ha1, ha2, hae⟩ | ⟨ha1, hae⟩ <;>
    rcases hcase b hb with ⟨hb1, hbe⟩ | ⟨hb1, hb2, hbe⟩ | ⟨hb1, hbe⟩ <;>
      rw [hae, hbe] at h <;> simp at h
  · exact digitChar_inj10 a ha1 b hb1 h
  · have e1 := digitChar_inj10 (a / 10) (by omega) (b / 10) (by omega) h.1
    have e2 := digitChar_inj10 (a % 10) (by omega) (b % 10) (by omega) h.2
    omega
  · have e1 := digitChar_inj10 (a / 100) (by omega) (b / 100) (by omega) h.1
    have e2 := digitChar_inj10 (a / 10 % 10) (by omega) (b / 10 % 10) (by omega) h.2.1
    have e3 := digitChar_inj10 (a % 10) (by omega) (b % 10) (by omega) h.2.2
    omega

theorem octetChars_eq_concrete (a n0 : Nat) (ha : a < 1000) (hn : n0 < 1000) :
    octetChars n0 = octetChars a ↔ a = n0 := by
  constructor
  · intro h
    exact (octetChars_inj n0 a hn ha h).symm
  · rintro rfl
    rfl

theorem prefix192_iff (a b c d : Nat) (ha : a ≤ 255) (hb : b ≤ 255) :
    (List.isPrefixOf ['1', '9', '2', '.', '1', '6', '8', '.']
      (octetChars a ++ '.' :: (octetChars b ++ '.' ::
        (octetChars c ++ '.' :: octetChars d))) = true) ↔ (a = 192 ∧ b = 168) := by
  have hA : ('.' : Char) ∉ octetChars a := not_dot_octet a (by omega)
  have hB : ('.' : Char) ∉ octetChars b := not_dot_octet b (by omega)
  have hshape : (['1', '9', '2', '.', '1', '6', '8', '.'] : List Char) =
      ['1', '9', '2'] ++ '.' :: (['1', '6', '8'] ++ '.' :: []) := rfl
  rw [hshape, isPrefixOf_dot _ _ _ _ (by decide) hA,
    isPrefixOf_dot _ _ _ _ (by decide) hB,
    show (['1', '9', '2'] : List Char) = octetChars 192 from by decide,
    show (['1', '6', '8'] : List Char) = octetChars 168 from by decide,
    octetChars_eq_concrete a 192 (by omega) (by omega),
    octetChars_eq_concrete b 168 (by omega) (by omega)]
  simp

theorem prefix169_iff (a b c d : Nat) (ha : a ≤ 255) (hb : b ≤ 255) :
    (List.isPrefixOf ['1', '6', '9', '.', '2', '5', '4', '.']
      (octetChars a ++ '.' :: (octetChars b ++ '.' ::
        (octetChars c ++ '.' :: octetChars d))) = true) ↔ (a = 169 ∧ b = 254) := by
  have hA : ('.' : Char) ∉ octetChars a := not_dot_octet a (by omega)
  have hB : ('.' : Char) ∉ octetChars b := not_dot_octet b (by omega)
  have hshape : (['1', '6', '9', '.', '2', '5', '4', '.'] : List Char) =
      ['1', '6', '9'] ++ '.' :: (['2', '5', '4'] ++ '.' :: []) := rfl
  rw [hshape, isPrefixOf_dot _ _ _ _ (by decide) hA,
    isPrefixOf_dot _ _ _ _ (by decide) hB,
    show (['1', '6', '9'] : List Char) = octetChars 169 from by decide,
    show (['2', '5', '4'] : List Char) = octetChars 254 from by decide,
    octetChars_eq_concrete a 169 (by omega) (by omega),
    octetChars_eq_concrete b 254 (by omega) (by omega)]
  simp

theorem prefix10_iff (a b c d : Nat) (ha : a ≤ 255) :
    (List.isPrefixOf ['1', '0', '.']
      (octetChars a ++ '.' :: (octetChars b ++ '.' ::
        (octetChars c ++ '.' :: octetChars d))) = true) ↔ a = 10 := by
  have hA : ('.' : Char) ∉ octetChars a := not_dot_octet a (by omega)
  have hshape : (['1', '0', '.'] : List Char) = ['1', '0'] ++ '.' :: [] := rfl
  rw [hshape, isPrefixOf_dot _ _ _ _ (by decide) hA,
    show (['1', '0'] : List Char) = octetChars 10 from by decide,
    octetChars_eq_concrete a 10 (by omega) (by omega)]
  simp

theorem prefix172_iff (a b c d : Nat) (ha : a ≤ 255) (hb : b ≤ 255) :
    (is172Private
      (octetChars a ++ '.' :: (octetChars b ++ '.' ::
        (octetChars c ++ '.' :: octetChars d))) = true) ↔
      (a = 172 ∧ 16 ≤ b ∧ b ≤ 31) := by
  have hA : ('.' : Char) ∉ octetChars a := not_dot_octet a (by omega)
  have hB : ('.' : Char) ∉ octetChars b := not_dot_octet b (by omega)
  rw [is172Private, List.any_eq_true]
  constructor
  · rintro ⟨k, hk, hpre⟩
    rw [List.mem_range] at hk
    have hshape : (['1', '7', '2', '.'] ++ (octetChars (16 + k) ++ ['.'])) =
        ['1', '7', '2'] ++ '.' :: (octetChars (16 + k) ++ '.' :: []) := by simp
    rw [hshape, isPrefixOf_dot _ _ _ _ (by decide) hA,
      isPrefixOf_dot _ _ _ _ (not_dot_octet (16 + k) (by omega)) hB] at hpre
    obtain ⟨h1, h2, _⟩ := hpre
    have ha172 : a = 172 := by
      rw [show (['1', '7', '2'] : List Char) = octetChars 172 from by decide] at h1
      exact (octetChars_eq_concrete a 172 (by omega) (by omega)).mp h1
    have hbk : b = 16 + k :=
      (octetChars_eq_concrete b (16 + k) (by omega) (by omega)).mp h2
    exact ⟨ha172, by omega, by omega⟩
  · rintro ⟨rfl, h16, h31⟩
    refine ⟨b - 16, ?_, ?_⟩
    · rw [List.mem_range]
      omega
    · have hb16 : 16 + (b - 16) = b := by omega
      rw [hb16]
      have hshape : (['1', '7', '2', '.'] ++ (octetChars b ++ ['.'])) =
          ['1', '7', '2'] ++ '.' :: (octetChars b ++ '.' :: []) := by simp
      rw [hshape, isPrefixOf_dot _ _ _ _ (by decide) hA,
        isPrefixOf_dot _ _ _ _ hB hB]
      refine ⟨by decide, rfl, by simp⟩

/-- C4: the classifier marks a well-formed IPv4 literal (four octet values
0..255 in canonical decimal) Private exactly when it lies in `10.0.0.0/8`,
`172.16.0.0/12`, `192.168.0.0/16`, or `169.254.0.0/16`, and Public otherwise.
The classifier is a pure function of the literal, so the classification is
deterministic. -/
theorem private_classification (a b c d : Nat) (ha : a ≤ 255) (hb : b ≤ 255)
    (hc : c ≤ 255) (hd : d ≤ 255) :
    (isPrivateIPv4 (ipv4Literal a b c d) = true ↔
      (a = 10 ∨ (a = 172 ∧ 16 ≤ b ∧ b ≤ 31) ∨ (a = 192 ∧ b = 168) ∨
        (a = 169 ∧ b = 254))) := by
  have hdata : isPrivateIPv4 (ipv4Literal a b c d) =
      isPrivateChars (octetChars a ++ '.' :: (octetChars b ++ '.' ::
        (octetChars c ++ '.' :: octetChars d))) := rfl
  rw [hdata]
  unfold isPrivateChars
  simp only [Bool.or_eq_true]
  rw [prefix192_iff a b c d ha hb, prefix169_iff a b c d ha hb,
    prefix10_iff a b c d ha, prefix172_iff a b c d ha hb]
  tauto

/-- C4 witness: 10.0.0.1 is classified Private and 8.8.8.8 Public. -/
theorem private_classification_witness :
    isPrivateIPv4 (ipv4Literal 10 0 0 1) = true ∧
    isPrivateIPv4 (ipv4Literal 8 8 8 8) = false := by
  constructor
  · exact (private_classification 10 0 0 1 (by decide) (by decide) (by decide)
      (by decide)).mpr (Or.inl rfl)
  · have h := private_classification 8 8 8 8 (by decide) (by decide) (by decide) (by decide)
    rw [Bool.eq_false_iff]
    intro hcon
    rcases h.mp hcon with h1 | ⟨h1, _, _⟩ | ⟨h1, _⟩ | ⟨h1, _⟩ <;> omega
